import Mathlib

/-!
Verification of the local_stt web client (`frontend/app.js`).

We shallowly embed the parts of the client that the specification talks
about: the WAV encoder `audioBufferToWav` (a `DataView` over a fresh
`ArrayBuffer`, modelled as a byte store `Nat → Nat`), its int16 sample
quantizer, the push-to-talk key-chord handlers (`handleKeyDown`,
`handleKeyUp`, `handleBlur` over the `state` flags), the generic settings
updater `setSetting`, and the bounded console log buffer `consoleLogger`.

Float32 samples are modelled as exact rationals: every float32 value is a
rational, and the operations the code performs on samples (min, max,
multiplication by 0x8000 / 0x7FFF in double precision, truncation by
`DataView.setInt16`) are exact on float32 inputs, so the rational model
computes the same int16 results as the JavaScript code.
-/

namespace LocalStt

/-! ## Byte store: `ArrayBuffer` + `DataView` -/

/-- A `DataView` over an `ArrayBuffer`: a byte at every offset. -/
def ByteView : Type := Nat → Nat

/-- A fresh `ArrayBuffer` is zero-initialized. -/
def emptyBuffer : ByteView := fun _ => 0

/-- `DataView.setUint8`: store one byte (values are reduced mod 256). -/
def setByte (view : ByteView) (off b : Nat) : ByteView :=
  fun j => if j = off then b % 256 else view j

/-- `DataView.setUint16(off, n, true)`: little-endian 16-bit store. -/
def setUint16 (view : ByteView) (off n : Nat) : ByteView :=
  setByte (setByte view off n) (off + 1) (n / 256)

/-- `DataView.setUint32(off, n, true)`: little-endian 32-bit store. -/
def setUint32 (view : ByteView) (off n : Nat) : ByteView :=
  setByte (setByte (setByte (setByte view off n) (off + 1) (n / 256))
    (off + 2) (n / 65536)) (off + 3) (n / 16777216)

/-- Truncation toward zero, as JavaScript `ToIntegerOrInfinity` performs
when `DataView.setInt16` receives a non-integral number. -/
def ratTrunc (q : ℚ) : ℤ := if q < 0 then ⌈q⌉ else ⌊q⌋

/-- `DataView.setInt16(off, q, true)`: truncate toward zero, wrap modulo
2^16 (two's complement), store little-endian. -/
def setInt16 (view : ByteView) (off : Nat) (q : ℚ) : ByteView :=
  setUint16 view off (ratTrunc q % 65536).toNat

/-- Recursive worker for `writeString`. -/
def writeChars (view : ByteView) (off : Nat) : List Char → ByteView
  | [] => view
  | c :: cs => writeChars (setByte view off c.toNat) (off + 1) cs

/-- `writeString(view, offset, string)` from app.js: store
`string.charCodeAt(i)` at `offset + i` for each position `i`. -/
def writeString (view : ByteView) (off : Nat) (s : String) : ByteView :=
  writeChars view off s.toList

/-- Little-endian 16-bit read from a byte store. -/
def readU16 (view : ByteView) (off : Nat) : Nat :=
  view off + 256 * view (off + 1)

/-- Little-endian 32-bit read from a byte store. -/
def readU32 (view : ByteView) (off : Nat) : Nat :=
  view off + 256 * view (off + 1) + 65536 * view (off + 2) +
    16777216 * view (off + 3)

/-- Little-endian signed 16-bit (two's complement) read. -/
def readI16 (view : ByteView) (off : Nat) : ℤ :=
  if 32768 ≤ readU16 view off then (readU16 view off : ℤ) - 65536
  else (readU16 view off : ℤ)

/-! ## `audioBufferToWav` -/

/-- The slice of a Web Audio `AudioBuffer` the encoder reads: its
`sampleRate` property and `getChannelData(0)`. -/
structure AudioBuffer where
  sampleRate : Nat
  channelData : List ℚ

/-- The clamp `Math.max(-1, Math.min(1, sample))` from the encoder loop. -/
def clampSample (x : ℚ) : ℚ := max (-1) (min 1 x)

/-- The scaled value `sample < 0 ? sample * 0x8000 : sample * 0x7FFF`
computed on the clamped sample. -/
def scaleSample (x : ℚ) : ℚ :=
  let sample := clampSample x
  if sample < 0 then sample * 0x8000 else sample * 0x7FFF

/-- The int16 value that `view.setInt16` actually stores for an input
sample `x` (before the two's-complement wrap, which is the identity on
in-range values). -/
def quantize (x : ℚ) : ℤ := ratTrunc (scaleSample x)

/-- The sample loop of `audioBufferToWav`: for each sample, clamp to
[-1, 1], scale, and `setInt16` at consecutive even offsets. -/
def writeSamples (view : ByteView) (off : Nat) : List ℚ → ByteView
  | [] => view
  | x :: xs =>
      let sample := clampSample x
      let int16 : ℚ := if sample < 0 then sample * 0x8000 else sample * 0x7FFF
      writeSamples (setInt16 view off int16) (off + 2) xs

/-- The `Blob` the encoder returns: a byte buffer of known size. -/
structure WavBlob where
  size : Nat
  bytes : ByteView

/-- `audioBufferToWav(audioBuffer)` from app.js, write for write. -/
def audioBufferToWav (audioBuffer : AudioBuffer) : WavBlob :=
  let numChannels := 1
  let sampleRate := audioBuffer.sampleRate
  let format := 1
  let bitDepth := 16
  let audioData := audioBuffer.channelData
  let dataLength := audioData.length * (bitDepth / 8)
  let view := emptyBuffer
  let view := writeString view 0 "RIFF"
  let view := setUint32 view 4 (36 + dataLength)
  let view := writeString view 8 "WAVE"
  let view := writeString view 12 "fmt "
  let view := setUint32 view 16 16
  let view := setUint16 view 20 format
  let view := setUint16 view 22 numChannels
  let view := setUint32 view 24 sampleRate
  let view := setUint32 view 28 (sampleRate * numChannels * (bitDepth / 8))
  let view := setUint16 view 32 (numChannels * (bitDepth / 8))
  let view := setUint16 view 34 bitDepth
  let view := writeString view 36 "data"
  let view := setUint32 view 40 dataLength
  let view := writeSamples view 44 audioData
  ⟨44 + dataLength, view⟩

/-- Reading a WAV byte buffer back: skip the 44-byte header, read
little-endian signed 16-bit samples. -/
def parseWavPcm (blob : WavBlob) : List ℤ :=
  (List.range ((blob.size - 44) / 2)).map fun i => readI16 blob.bytes (44 + 2 * i)

/-! ## Push-to-talk key-chord state machine

`handleKeyDown` / `handleKeyUp` / `handleBlur` mutate the flags of the
global `state` object; DOM class toggles and text updates are pure UI and
are not modelled.  `startRecording` is modelled on its success path (audio
already initialized): it clears the chunk list, starts the
`MediaRecorder` and sets `isRecording`; a failed `initAudio` would leave
the state unchanged, which only strengthens the never-records theorems.
`recorderActive` models `state.mediaRecorder && state.mediaRecorder.state
!== 'inactive'`. -/

/-- `event.code` values relevant to the chord handlers. -/
inductive KeyCode
  | controlLeft
  | controlRight
  | shiftLeft
  | shiftRight
  | metaLeft
  | metaRight
  | other
deriving DecidableEq

/-- The controller-relevant flags of the global `state` object. -/
structure ClientState where
  modifierPressed : Bool
  cmdPressed : Bool
  isRecording : Bool
  isProcessing : Bool
  recorderActive : Bool
deriving DecidableEq

/-- The initial `state` object: every flag false, no recorder. -/
def initState : ClientState :=
  { modifierPressed := false
    cmdPressed := false
    isRecording := false
    isProcessing := false
    recorderActive := false }

/-- Observable capture signals emitted by the handlers. -/
inductive Action
  | startCapture
  | stopCapture
deriving DecidableEq

/-- `isLeftModifierKey(event)`: `ControlLeft` when the keybinding setting
is `ctrl_only` or `ctrl`, otherwise `ShiftLeft`. -/
def isLeftModifierKey (keybinding : String) (code : KeyCode) : Bool :=
  if keybinding = "ctrl_only" ∨ keybinding = "ctrl" then
    code = KeyCode.controlLeft
  else
    code = KeyCode.shiftLeft

/-- `isLeftCommandKey(event)`: `event.code === 'MetaLeft'`. -/
def isLeftCommandKey (code : KeyCode) : Bool :=
  code = KeyCode.metaLeft

/-- `startRecording()` on the success path: set `isRecording`, start the
`MediaRecorder`, emit the start-capture signal. -/
def startRecording (s : ClientState) : ClientState × List Action :=
  ({ s with isRecording := true, recorderActive := true }, [Action.startCapture])

/-- `stopRecording()`: bail out if the recorder is absent or inactive;
otherwise clear `isRecording`, set `isProcessing`, stop the recorder and
hand the buffered audio off (the stop-capture signal). -/
def stopRecording (s : ClientState) : ClientState × List Action :=
  if !s.recorderActive then (s, [])
  else
    ({ s with isRecording := false, isProcessing := true, recorderActive := false },
      [Action.stopCapture])

/-- `handleKeyDown(event)`. -/
def handleKeyDown (keybinding : String) (s : ClientState) (code : KeyCode) :
    ClientState × List Action :=
  let s := if isLeftModifierKey keybinding code then { s with modifierPressed := true } else s
  let s := if isLeftCommandKey code then { s with cmdPressed := true } else s
  if s.modifierPressed && s.cmdPressed && !s.isRecording && !s.isProcessing then
    startRecording s
  else
    (s, [])

/-- `handleKeyUp(event)`. -/
def handleKeyUp (keybinding : String) (s : ClientState) (code : KeyCode) :
    ClientState × List Action :=
  let s := if isLeftModifierKey keybinding code then { s with modifierPressed := false } else s
  let s := if isLeftCommandKey code then { s with cmdPressed := false } else s
  if s.isRecording && (!s.modifierPressed || !s.cmdPressed) then
    stopRecording s
  else
    (s, [])

/-- `handleBlur()`: clear both key flags, stop if recording. -/
def handleBlur (s : ClientState) : ClientState × List Action :=
  let s := { s with modifierPressed := false, cmdPressed := false }
  if s.isRecording then stopRecording s else (s, [])

/-- `handleTranscriptionResult(result)`: the state mutation is
`state.isProcessing = false` (the rest is UI and history refresh). -/
def handleTranscriptionResult (s : ClientState) : ClientState × List Action :=
  ({ s with isProcessing := false }, [])

/-- The discrete events fed to the controller. -/
inductive Event
  | keydown (code : KeyCode)
  | keyup (code : KeyCode)
  | blur
  | transcriptionResult
deriving DecidableEq

/-- Dispatch one event to its handler. -/
def step (keybinding : String) (s : ClientState) : Event → ClientState × List Action
  | Event.keydown code => handleKeyDown keybinding s code
  | Event.keyup code => handleKeyUp keybinding s code
  | Event.blur => handleBlur s
  | Event.transcriptionResult => handleTranscriptionResult s

/-- Run a sequence of events, accumulating the emitted capture signals. -/
def runEvents (keybinding : String) (s : ClientState) : List Event → ClientState × List Action
  | [] => (s, [])
  | e :: es =>
      let r := step keybinding s e
      let rest := runEvents keybinding r.1 es
      (rest.1, r.2 ++ rest.2)

/-! ## `setSetting` -/

/-- The client's view of the settings map (`state.settings`). -/
def SettingsMap : Type := String → Option String

/-- The PUT response: its `ok` flag and parsed JSON body. -/
structure PutResponse where
  ok : Bool
  data : String → Option String

/-- `updateSettingsUI(data)`: every statement is a DOM update except the
final block, which writes `state.settings.replacements_enabled =
data.replacements_enabled` whenever the response body defines that
field (`undefined` is modelled as `Option.none`).
`updateReplacementsEnabledUI` only reads the settings. -/
def updateSettingsUI (data : String → Option String) (settings : SettingsMap) :
    SettingsMap :=
  match data "replacements_enabled" with
  | Option.none => settings
  | Option.some v =>
      fun k => if k = "replacements_enabled" then Option.some v else settings k

/-- `setSetting(key, value)`: on a non-ok response the thrown error is
caught by the `catch` block, which only logs — the settings map is
untouched; on success `state.settings[key] = data[key]` and then
`updateSettingsUI(data)` runs, which may also refresh
`replacements_enabled` from the response body. -/
def setSetting (resp : PutResponse) (key : String) (settings : SettingsMap) :
    SettingsMap :=
  if !resp.ok then settings
  else
    updateSettingsUI resp.data
      (fun k => if k = key then resp.data key else settings k)

/-! ## `consoleLogger` -/

/-- One buffered console entry (the timestamp is not modelled). -/
structure LogEntry where
  type : String
  message : String
deriving DecidableEq

/-- The mutable fields of `consoleLogger`. -/
structure LoggerState where
  logs : List LogEntry
  errorCount : Nat
deriving DecidableEq

/-- `consoleLogger.maxLogs`. -/
def maxLogs : Nat := 100

/-- `consoleLogger.addLog(type, args)`: push the formatted entry, shift
the oldest entry out when the bound is exceeded, bump `errorCount` on
error entries.  (`render()` is UI only.) -/
def addLog (st : LoggerState) (e : LogEntry) : LoggerState :=
  let logs := st.logs ++ [e]
  let logs := if logs.length > maxLogs then logs.tail else logs
  { logs := logs
    errorCount := if e.type = "error" then st.errorCount + 1 else st.errorCount }

/-- `consoleLogger.clear()`. -/
def clear (_st : LoggerState) : LoggerState :=
  { logs := [], errorCount := 0 }

/-! ## Helper lemmas about the byte store and the encoder -/

theorem writeSamples_cons (view : ByteView) (off : Nat) (x : ℚ) (xs : List ℚ) :
    writeSamples view off (x :: xs) =
      writeSamples (setInt16 view off (scaleSample x)) (off + 2) xs := rfl

theorem writeSamples_lt (xs : List ℚ) (view : ByteView) (off j : Nat)
    (hj : j < off) : writeSamples view off xs j = view j := by
  induction xs generalizing view off with
  | nil => rfl
  | cons x xs ih =>
      rw [writeSamples_cons, ih _ _ (by omega)]
      simp only [setInt16, setUint16, setByte]
      rw [if_neg (by omega), if_neg (by omega)]

theorem clampSample_mem (x : ℚ) : -1 ≤ clampSample x ∧ clampSample x ≤ 1 :=
  ⟨le_max_left _ _, max_le (by norm_num) (min_le_left _ _)⟩

theorem scaleSample_bounds (x : ℚ) :
    -32768 ≤ scaleSample x ∧ scaleSample x ≤ 32767 := by
  obtain ⟨h1, h2⟩ := clampSample_mem x
  simp only [scaleSample]
  by_cases hneg : clampSample x < 0
  · rw [if_pos hneg]
    constructor <;> nlinarith
  · rw [if_neg hneg]
    push_neg at hneg
    constructor <;> nlinarith

theorem ratTrunc_bounds (lo hi : ℤ) {q : ℚ} (hlo : (lo : ℚ) ≤ q)
    (hhi : q ≤ (hi : ℚ)) : lo ≤ ratTrunc q ∧ ratTrunc q ≤ hi := by
  unfold ratTrunc
  by_cases h : q < 0
  · rw [if_pos h]
    refine ⟨?_, Int.ceil_le.mpr hhi⟩
    calc lo = ⌈(lo : ℚ)⌉ := (Int.ceil_intCast lo).symm
      _ ≤ ⌈q⌉ := Int.ceil_mono hlo
  · rw [if_neg h]
    refine ⟨Int.le_floor.mpr hlo, ?_⟩
    calc ⌊q⌋ ≤ ⌊(hi : ℚ)⌋ := Int.floor_mono hhi
      _ = hi := Int.floor_intCast hi

theorem quantize_bounds (x : ℚ) : -32768 ≤ quantize x ∧ quantize x ≤ 32767 := by
  have h := scaleSample_bounds x
  exact ratTrunc_bounds (-32768) 32767
    (by push_cast; exact h.1) (by push_cast; exact h.2)

theorem ratTrunc_intCast (z : ℤ) : ratTrunc (z : ℚ) = z := by
  unfold ratTrunc
  split_ifs <;> simp

theorem quantize_neg_one : quantize (-1) = -32768 := by
  have hc : clampSample (-1 : ℚ) = -1 := by
    rw [clampSample, min_eq_right (by norm_num : (-1 : ℚ) ≤ 1), max_self]
  have hs : scaleSample (-1 : ℚ) = ((-32768 : ℤ) : ℚ) := by
    simp only [scaleSample, hc]
    rw [if_pos (by norm_num : (-1 : ℚ) < 0)]
    push_cast
    norm_num
  rw [quantize, hs, ratTrunc_intCast]

theorem quantize_zero : quantize 0 = 0 := by
  have hc : clampSample (0 : ℚ) = 0 := by
    rw [clampSample, min_eq_right (by norm_num : (0 : ℚ) ≤ 1),
      max_eq_right (by norm_num : (-1 : ℚ) ≤ 0)]
  have hs : scaleSample (0 : ℚ) = ((0 : ℤ) : ℚ) := by
    simp only [scaleSample, hc]
    rw [if_neg (by norm_num : ¬ (0 : ℚ) < 0)]
    norm_num
  rw [quantize, hs, ratTrunc_intCast]

theorem quantize_one : quantize 1 = 32767 := by
  have hc : clampSample (1 : ℚ) = 1 := by
    rw [clampSample, min_self, max_eq_right (by norm_num : (-1 : ℚ) ≤ 1)]
  have hs : scaleSample (1 : ℚ) = ((32767 : ℤ) : ℚ) := by
    simp only [scaleSample, hc]
    rw [if_neg (by norm_num : ¬ (1 : ℚ) < 0)]
    push_cast
    norm_num
  rw [quantize, hs, ratTrunc_intCast]

theorem readU16_setUint16 (view : ByteView) (off n : Nat) :
    readU16 (setUint16 view off n) off = n % 65536 := by
  simp [readU16, setUint16, setByte]
  omega

theorem readI16_setInt16 (view : ByteView) (off : Nat) (q : ℚ)
    (hlo : -32768 ≤ ratTrunc q) (hhi : ratTrunc q ≤ 32767) :
    readI16 (setInt16 view off q) off = ratTrunc q := by
  rw [readI16, setInt16, readU16_setUint16]
  split_ifs with hcase <;> omega

theorem readI16_writeSamples_lt (xs : List ℚ) (view : ByteView) (off j : Nat)
    (hj : j + 1 < off) :
    readI16 (writeSamples view off xs) j = readI16 view j := by
  rw [readI16, readI16, readU16, readU16,
    writeSamples_lt xs view off j (by omega),
    writeSamples_lt xs view off (j + 1) (by omega)]

theorem readI16_writeSamples (xs : List ℚ) (view : ByteView) (off i : Nat)
    (hi : i < xs.length) :
    readI16 (writeSamples view off xs) (off + 2 * i) = quantize (xs.getD i 0) := by
  induction xs generalizing view off i with
  | nil => simp at hi
  | cons x xs ih =>
      cases i with
      | zero =>
          have hb := scaleSample_bounds x
          have hq : -32768 ≤ ratTrunc (scaleSample x) ∧
              ratTrunc (scaleSample x) ≤ 32767 :=
            ratTrunc_bounds (-32768) 32767
              (by push_cast; exact hb.1) (by push_cast; exact hb.2)
          rw [writeSamples_cons]
          have hoff : off + 2 * 0 = off := by omega
          rw [hoff, readI16_writeSamples_lt xs _ (off + 2) off (by omega),
            readI16_setInt16 view off (scaleSample x) hq.1 hq.2]
          rfl
      | succ i =>
          rw [writeSamples_cons]
          have hoff : off + 2 * (i + 1) = (off + 2) + 2 * i := by ring
          rw [hoff, ih _ _ _ (by simpa using hi)]
          simp

/-! ## Claim theorems -/

theorem readU16_writeSamples_ltOff (xs : List ℚ) (view : ByteView) (off j : Nat)
    (hj : j + 1 < off) :
    readU16 (writeSamples view off xs) j = readU16 view j := by
  rw [readU16, readU16, writeSamples_lt xs view off j (by omega),
    writeSamples_lt xs view off (j + 1) (by omega)]

theorem readU32_writeSamples_ltOff (xs : List ℚ) (view : ByteView) (off j : Nat)
    (hj : j + 3 < off) :
    readU32 (writeSamples view off xs) j = readU32 view j := by
  rw [readU32, readU32, writeSamples_lt xs view off j (by omega),
    writeSamples_lt xs view off (j + 1) (by omega),
    writeSamples_lt xs view off (j + 2) (by omega),
    writeSamples_lt xs view off (j + 3) (by omega)]

/-- Claim C1 counterexample: for a buffer whose `sampleRate` property is
8000, the sample-rate field of the emitted header (bytes 24-27,
little-endian) holds 8000, not the canonical 16000 the claim requires of
every buffer. -/
theorem wav_sample_rate_counterexample :
    readU32 (audioBufferToWav ⟨8000, []⟩).bytes 24 = 8000 ∧ (8000 : Nat) ≠ 16000 := by
  constructor
  · simp only [audioBufferToWav]
    rw [readU32_writeSamples_ltOff _ _ _ _ (by omega)]
    simp [writeString, writeChars, setUint32, setUint16, setByte, emptyBuffer, readU32]
  · decide

/-- Claim C1 (amended): for every mono float32 audio buffer,
`audioBufferToWav` produces a byte buffer of a 44-byte RIFF/WAVE header
followed by the PCM payload: bytes 0-3 `RIFF`, RIFF chunk size
`36 + dataLength`, `WAVE`, a 16-byte `fmt ` subchunk with PCM format tag
1, channel count 1, the buffer's sample rate (16000 when the buffer is at
the canonical rate), byte rate = sample rate × 2, block align 2, bits per
sample 16, then a `data` subchunk whose size equals sample count × 2
bytes, all multi-byte fields little-endian. -/
theorem audioBufferToWav_layout (ab : AudioBuffer)
    (hrate : ab.sampleRate * 2 < 4294967296)
    (hlen : 36 + 2 * ab.channelData.length < 4294967296) :
    (audioBufferToWav ab).size = 44 + 2 * ab.channelData.length ∧
    (audioBufferToWav ab).bytes 0 = 82 ∧
    (audioBufferToWav ab).bytes 1 = 73 ∧
    (audioBufferToWav ab).bytes 2 = 70 ∧
    (audioBufferToWav ab).bytes 3 = 70 ∧
    readU32 (audioBufferToWav ab).bytes 4 = 36 + 2 * ab.channelData.length ∧
    (audioBufferToWav ab).bytes 8 = 87 ∧
    (audioBufferToWav ab).bytes 9 = 65 ∧
    (audioBufferToWav ab).bytes 10 = 86 ∧
    (audioBufferToWav ab).bytes 11 = 69 ∧
    (audioBufferToWav ab).bytes 12 = 102 ∧
    (audioBufferToWav ab).bytes 13 = 109 ∧
    (audioBufferToWav ab).bytes 14 = 116 ∧
    (audioBufferToWav ab).bytes 15 = 32 ∧
    readU32 (audioBufferToWav ab).bytes 16 = 16 ∧
    readU16 (audioBufferToWav ab).bytes 20 = 1 ∧
    readU16 (audioBufferToWav ab).bytes 22 = 1 ∧
    readU32 (audioBufferToWav ab).bytes 24 = ab.sampleRate ∧
    readU32 (audioBufferToWav ab).bytes 28 = ab.sampleRate * 2 ∧
    readU16 (audioBufferToWav ab).bytes 32 = 2 ∧
    readU16 (audioBufferToWav ab).bytes 34 = 16 ∧
    (audioBufferToWav ab).bytes 36 = 100 ∧
    (audioBufferToWav ab).bytes 37 = 97 ∧
    (audioBufferToWav ab).bytes 38 = 116 ∧
    (audioBufferToWav ab).bytes 39 = 97 ∧
    readU32 (audioBufferToWav ab).bytes 40 = 2 * ab.channelData.length ∧
    ∀ i : Nat, i < ab.channelData.length →
      readI16 (audioBufferToWav ab).bytes (44 + 2 * i) =
        quantize (ab.channelData.getD i 0) := by
  refine ⟨?hsize, ?_, ?_, ?_, ?_, ?_, ?_, ?_, ?_, ?_, ?_, ?_, ?_, ?_, ?_, ?_,
    ?_, ?_, ?_, ?_, ?_, ?_, ?_, ?_, ?_, ?_, ?hpayload⟩
  case hsize =>
    show 44 + ab.channelData.length * (16 / 8) = 44 + 2 * ab.channelData.length
    omega
  case hpayload => exact fun i hi => readI16_writeSamples ab.channelData _ 44 i hi
  all_goals
    simp only [audioBufferToWav]
    first
      | rw [readU32_writeSamples_ltOff _ _ _ _ (by omega)]
      | rw [readU16_writeSamples_ltOff _ _ _ _ (by omega)]
      | rw [writeSamples_lt _ _ _ _ (by omega)]
    simp [writeString, writeChars, setUint32, setUint16, setByte, emptyBuffer,
      readU32, readU16]
    try omega

/-- Claim C2: writing a clip with `audioBufferToWav` and parsing the byte
buffer back (44-byte header skipped, little-endian signed 16-bit samples)
yields exactly the int16 sample data that was written, sample for
sample. -/
theorem wav_pcm_roundtrip (ab : AudioBuffer) :
    parseWavPcm (audioBufferToWav ab) = ab.channelData.map quantize := by
  have hsize : ((audioBufferToWav ab).size - 44) / 2 = ab.channelData.length := by
    show (44 + ab.channelData.length * (16 / 8) - 44) / 2 = ab.channelData.length
    omega
  have hread : ∀ i : Nat, i < ab.channelData.length →
      readI16 (audioBufferToWav ab).bytes (44 + 2 * i) =
        quantize (ab.channelData.getD i 0) := by
    intro i hi
    exact readI16_writeSamples ab.channelData _ 44 i hi
  rw [parseWavPcm, hsize]
  apply List.ext_getElem
  · simp
  · intro i h1 h2
    simp only [List.getElem_map, List.getElem_range]
    rw [hread i (by simpa using h2),
      List.getD_eq_getElem ab.channelData 0 (by simpa using h2)]

/-- Claim C1 witness: at the canonical rate 16000 the header's sample-rate
field reads back 16000 and the byte-rate field 32000. -/
theorem audioBufferToWav_layout_witness :
    16000 * 2 < 4294967296 ∧
    readU32 (audioBufferToWav ⟨16000, []⟩).bytes 24 = 16000 ∧
    readU32 (audioBufferToWav ⟨16000, []⟩).bytes 28 = 16000 * 2 := by
  have h := audioBufferToWav_layout ⟨16000, []⟩ (by norm_num) (by norm_num)
  exact ⟨by norm_num,
    h.2.2.2.2.2.2.2.2.2.2.2.2.2.2.2.2.2.1,
    h.2.2.2.2.2.2.2.2.2.2.2.2.2.2.2.2.2.2.1⟩

theorem runEvents_cons (keybinding : String) (s : ClientState) (e : Event)
    (es : List Event) :
    runEvents keybinding s (e :: es) =
      ((runEvents keybinding (step keybinding s e).1 es).1,
        (step keybinding s e).2 ++ (runEvents keybinding (step keybinding s e).1 es).2) := rfl

theorem isLeftModifierKey_metaLeft (keybinding : String) :
    isLeftModifierKey keybinding KeyCode.metaLeft = false := by
  rw [isLeftModifierKey]
  split_ifs <;> rfl

theorem step_preserves_noCmd (keybinding : String) (s : ClientState) (e : Event)
    (hcmd : s.cmdPressed = false) (hrec : s.isRecording = false)
    (he : ∀ c : KeyCode, e = Event.keydown c → c ≠ KeyCode.metaLeft) :
    (step keybinding s e).1.cmdPressed = false ∧
      (step keybinding s e).1.isRecording = false := by
  cases e with
  | keydown c =>
      have hc : c ≠ KeyCode.metaLeft := he c rfl
      have hlc : isLeftCommandKey c = false := by
        rw [isLeftCommandKey]
        simp [hc]
      simp only [step, handleKeyDown, hlc]
      split_ifs <;> simp_all [startRecording]
  | keyup c =>
      simp only [step, handleKeyUp]
      split_ifs <;> simp_all [stopRecording]
  | blur =>
      simp only [step, handleBlur]
      split_ifs <;> simp_all [stopRecording]
  | transcriptionResult =>
      exact ⟨hcmd, hrec⟩

theorem step_preserves_noModifier (keybinding : String) (s : ClientState) (e : Event)
    (hmod : s.modifierPressed = false) (hrec : s.isRecording = false)
    (he : ∀ c : KeyCode, e = Event.keydown c → isLeftModifierKey keybinding c = false) :
    (step keybinding s e).1.modifierPressed = false ∧
      (step keybinding s e).1.isRecording = false := by
  cases e with
  | keydown c =>
      have hlm : isLeftModifierKey keybinding c = false := he c rfl
      simp only [step, handleKeyDown, hlm]
      split_ifs <;> simp_all [startRecording]
  | keyup c =>
      simp only [step, handleKeyUp]
      split_ifs <;> simp_all [stopRecording]
  | blur =>
      simp only [step, handleBlur]
      split_ifs <;> simp_all [stopRecording]
  | transcriptionResult =>
      exact ⟨hmod, hrec⟩

theorem runEvents_noCmd (keybinding : String) : ∀ (evs : List Event) (s : ClientState),
    (∀ c : KeyCode, Event.keydown c ∈ evs → c ≠ KeyCode.metaLeft) →
    s.cmdPressed = false → s.isRecording = false →
    (runEvents keybinding s evs).1.cmdPressed = false ∧
      (runEvents keybinding s evs).1.isRecording = false := by
  intro evs
  induction evs with
  | nil => exact fun s _ hcmd hrec => ⟨hcmd, hrec⟩
  | cons e es ih =>
      intro s hev hcmd hrec
      rw [runEvents_cons]
      have hstep := step_preserves_noCmd keybinding s e hcmd hrec
        (fun c hc => hev c (hc ▸ List.mem_cons_self _ _))
      exact ih _ (fun c hc => hev c (List.mem_cons_of_mem _ hc)) hstep.1 hstep.2

theorem runEvents_noModifier (keybinding : String) : ∀ (evs : List Event) (s : ClientState),
    (∀ c : KeyCode, Event.keydown c ∈ evs → isLeftModifierKey keybinding c = false) →
    s.modifierPressed = false → s.isRecording = false →
    (runEvents keybinding s evs).1.modifierPressed = false ∧
      (runEvents keybinding s evs).1.isRecording = false := by
  intro evs
  induction evs with
  | nil => exact fun s _ hmod hrec => ⟨hmod, hrec⟩
  | cons e es ih =>
      intro s hev hmod hrec
      rw [runEvents_cons]
      have hstep := step_preserves_noModifier keybinding s e hmod hrec
        (fun c hc => hev c (hc ▸ List.mem_cons_self _ _))
      exact ih _ (fun c hc => hev c (List.mem_cons_of_mem _ hc)) hstep.1 hstep.2

/-- Claim C3: over any sequence of key events in which only one of the two
chord keys is ever pressed (no keydown of the second key `MetaLeft`, or no
keydown of the configured modifier key), the controller never enters the
Recording state: at every prefix of the run `isRecording` is false. -/
theorem chord_single_key_never_records (keybinding : String) (evs : List Event)
    (hone : (∀ c : KeyCode, Event.keydown c ∈ evs → c ≠ KeyCode.metaLeft) ∨
      (∀ c : KeyCode, Event.keydown c ∈ evs → isLeftModifierKey keybinding c = false))
    (k : Nat) :
    (runEvents keybinding initState (evs.take k)).1.isRecording = false := by
  cases hone with
  | inl h =>
      exact (runEvents_noCmd keybinding (evs.take k) initState
        (fun c hc => h c (List.take_subset k evs hc)) rfl rfl).2
  | inr h =>
      exact (runEvents_noModifier keybinding (evs.take k) initState
        (fun c hc => h c (List.take_subset k evs hc)) rfl rfl).2

/-- Claim C3 witness: a run that presses and releases only the configured
modifier key never records. -/
theorem chord_single_key_never_records_witness :
    (runEvents "ctrl_only" initState
      (([Event.keydown KeyCode.controlLeft,
         Event.keyup KeyCode.controlLeft]).take 2)).1.isRecording = false :=
  chord_single_key_never_records "ctrl_only"
    [Event.keydown KeyCode.controlLeft, Event.keyup KeyCode.controlLeft]
    (Or.inl (by intro c hc; simp at hc; subst hc; decide)) 2

/-- Claim C4: in the Recording state (both chord keys held, recorder
active), the first release of either chord key emits exactly one
stop-capture and moves to Processing (`isRecording` false, `isProcessing`
true); the subsequent release of the other chord key emits nothing and
leaves the controller in Processing. -/
theorem recording_release_stops_once (keybinding : String) (s : ClientState)
    (c1 c2 : KeyCode)
    (hmod : s.modifierPressed = true) (hcmd : s.cmdPressed = true)
    (hrec : s.isRecording = true) (_hproc : s.isProcessing = false)
    (hact : s.recorderActive = true)
    (hchord : (isLeftModifierKey keybinding c1 = true ∧ c2 = KeyCode.metaLeft) ∨
      (c1 = KeyCode.metaLeft ∧ isLeftModifierKey keybinding c2 = true)) :
    (handleKeyUp keybinding s c1).2 = [Action.stopCapture] ∧
    (handleKeyUp keybinding s c1).1.isRecording = false ∧
    (handleKeyUp keybinding s c1).1.isProcessing = true ∧
    (handleKeyUp keybinding (handleKeyUp keybinding s c1).1 c2).2 = [] ∧
    (handleKeyUp keybinding (handleKeyUp keybinding s c1).1 c2).1.isRecording = false ∧
    (handleKeyUp keybinding (handleKeyUp keybinding s c1).1 c2).1.isProcessing = true := by
  have hml := isLeftModifierKey_metaLeft keybinding
  rcases hchord with ⟨h1, h2⟩ | ⟨h1, h2⟩
  · have hc1 : c1 ≠ KeyCode.metaLeft := by
      intro h
      rw [h, hml] at h1
      simp at h1
    subst h2
    simp [handleKeyUp, h1, hc1, isLeftCommandKey, stopRecording, hmod, hcmd,
      hrec, hact, hml]
  · have hc2 : c2 ≠ KeyCode.metaLeft := by
      intro h
      rw [h, hml] at h2
      simp at h2
    subst h1
    simp [handleKeyUp, h2, hc2, isLeftCommandKey, stopRecording, hmod, hcmd,
      hrec, hact, hml]

/-- Claim C4 witness: concrete Recording state, modifier released then the
command key released. -/
theorem recording_release_stops_once_witness :
    (handleKeyUp "ctrl_only" ⟨true, true, true, false, true⟩ KeyCode.controlLeft).2 =
        [Action.stopCapture] ∧
    (handleKeyUp "ctrl_only" ⟨true, true, true, false, true⟩ KeyCode.controlLeft).1.isRecording = false ∧
    (handleKeyUp "ctrl_only" ⟨true, true, true, false, true⟩ KeyCode.controlLeft).1.isProcessing = true ∧
    (handleKeyUp "ctrl_only"
      (handleKeyUp "ctrl_only" ⟨true, true, true, false, true⟩ KeyCode.controlLeft).1
      KeyCode.metaLeft).2 = [] ∧
    (handleKeyUp "ctrl_only"
      (handleKeyUp "ctrl_only" ⟨true, true, true, false, true⟩ KeyCode.controlLeft).1
      KeyCode.metaLeft).1.isRecording = false ∧
    (handleKeyUp "ctrl_only"
      (handleKeyUp "ctrl_only" ⟨true, true, true, false, true⟩ KeyCode.controlLeft).1
      KeyCode.metaLeft).1.isProcessing = true :=
  recording_release_stops_once "ctrl_only" ⟨true, true, true, false, true⟩
    KeyCode.controlLeft KeyCode.metaLeft rfl rfl rfl rfl rfl
    (Or.inl ⟨by decide, rfl⟩)

/-- Claim C5: while Recording or Processing, a key press never starts a new
capture: `handleKeyDown` emits no start-capture signal and leaves
`isRecording` and `isProcessing` unchanged. -/
theorem busy_chord_press_ignored (keybinding : String) (s : ClientState) (c : KeyCode)
    (hbusy : s.isRecording = true ∨ s.isProcessing = true) :
    (handleKeyDown keybinding s c).2 = [] ∧
    (handleKeyDown keybinding s c).1.isRecording = s.isRecording ∧
    (handleKeyDown keybinding s c).1.isProcessing = s.isProcessing := by
  simp only [handleKeyDown]
  rcases hbusy with h | h <;> split_ifs <;> simp_all [startRecording]

/-- Claim C5 witness: while Processing, a chord press is ignored. -/
theorem busy_chord_press_ignored_witness :
    (handleKeyDown "ctrl_only" ⟨true, false, false, true, false⟩ KeyCode.metaLeft).2 = [] ∧
    (handleKeyDown "ctrl_only" ⟨true, false, false, true, false⟩ KeyCode.metaLeft).1.isRecording =
      (⟨true, false, false, true, false⟩ : ClientState).isRecording ∧
    (handleKeyDown "ctrl_only" ⟨true, false, false, true, false⟩ KeyCode.metaLeft).1.isProcessing =
      (⟨true, false, false, true, false⟩ : ClientState).isProcessing :=
  busy_chord_press_ignored "ctrl_only" ⟨true, false, false, true, false⟩
    KeyCode.metaLeft (Or.inr rfl)

/-- Claim C6 counterexample: blur while Processing does not return the
controller to Idle — `isProcessing` stays true.  This refutes the claim
that a blur forces the Idle state from any state. -/
theorem blur_processing_counterexample :
    ¬ ((handleBlur ⟨false, false, false, true, false⟩).1.isProcessing = false) := by
  decide

/-- Claim C6 (amended): on blur both key-pressed flags are cleared, and if
the state was Recording (with an active recorder) a single stop-capture is
emitted and the controller moves to Processing; blur does not clear
`isProcessing`, so a controller in Processing stays in Processing until a
transcription result arrives. -/
theorem handleBlur_spec (s : ClientState) :
    (handleBlur s).1.modifierPressed = false ∧
    (handleBlur s).1.cmdPressed = false ∧
    (handleBlur s).2 =
      (if s.isRecording && s.recorderActive then [Action.stopCapture] else []) ∧
    (handleBlur s).1.isRecording = (s.isRecording && !s.recorderActive) ∧
    (handleBlur s).1.isProcessing =
      (s.isProcessing || (s.isRecording && s.recorderActive)) := by
  simp only [handleBlur, stopRecording]
  split_ifs <;> simp_all

/-- Claim C7: chord matching distinguishes left from right physical keys:
`isLeftModifierKey` only accepts `ControlLeft` / `ShiftLeft`,
`isLeftCommandKey` only `MetaLeft`, and a right-side modifier key press
never sets either chord-key-pressed flag. -/
theorem left_key_matching (keybinding : String) (c : KeyCode) (s : ClientState) :
    (isLeftModifierKey keybinding c = true →
      c = KeyCode.controlLeft ∨ c = KeyCode.shiftLeft) ∧
    (isLeftCommandKey c = true → c = KeyCode.metaLeft) ∧
    ((c = KeyCode.controlRight ∨ c = KeyCode.shiftRight ∨ c = KeyCode.metaRight) →
      (handleKeyDown keybinding s c).1.modifierPressed = s.modifierPressed ∧
      (handleKeyDown keybinding s c).1.cmdPressed = s.cmdPressed) := by
  refine ⟨?_, ?_, ?_⟩
  · rw [isLeftModifierKey]
    split_ifs <;> intro h <;> simp_all
  · rw [isLeftCommandKey]
    intro h
    simpa using h
  · intro hright
    have hlm : isLeftModifierKey keybinding c = false := by
      rw [isLeftModifierKey]
      rcases hright with h | h | h <;> subst h <;> split_ifs <;> rfl
    have hlc : isLeftCommandKey c = false := by
      rw [isLeftCommandKey]
      rcases hright with h | h | h <;> subst h <;> rfl
    simp only [handleKeyDown, hlm, hlc]
    split_ifs <;> simp_all [startRecording]

/-- Claim C7 witness: a right Control press leaves both chord flags
unchanged. -/
theorem left_key_matching_witness :
    (handleKeyDown "ctrl_only" initState KeyCode.controlRight).1.modifierPressed =
      initState.modifierPressed ∧
    (handleKeyDown "ctrl_only" initState KeyCode.controlRight).1.cmdPressed =
      initState.cmdPressed :=
  (left_key_matching "ctrl_only" KeyCode.controlRight initState).2.2 (Or.inl rfl)

/-- Claim C8: if the server rejects the update (response not ok), the
thrown error lands in the catch block, which only logs: the settings map
is unchanged at every key — the updated key retains its prior value and
no other setting is partially updated.  The map is mutated only on the
success path, where `state.settings[key] = data[key]` and
`updateSettingsUI` may additionally refresh `replacements_enabled` from
the response body; every other key is untouched even then. -/
theorem setSetting_rejected_preserves (resp : PutResponse) (key : String)
    (settings : SettingsMap) :
    (resp.ok = false → ∀ k : String, setSetting resp key settings k = settings k) ∧
    (resp.ok = true → setSetting resp key settings key = resp.data key) ∧
    (resp.ok = true → ∀ k : String, k ≠ key → k ≠ "replacements_enabled" →
      setSetting resp key settings k = settings k) := by
  refine ⟨?_, ?_, ?_⟩
  · intro h k
    simp [setSetting, h]
  · intro h
    simp only [setSetting, h, Bool.not_true, Bool.false_eq_true, if_false]
    rw [updateSettingsUI]
    rcases hd : resp.data "replacements_enabled" with _ | v
    · simp
    · by_cases hk : key = "replacements_enabled"
      · subst hk
        simp [hd]
      · simp [hk]
  · intro h k hk hk2
    simp only [setSetting, h, Bool.not_true, Bool.false_eq_true, if_false]
    rw [updateSettingsUI]
    rcases hd : resp.data "replacements_enabled" with _ | v
    · simp [hk]
    · simp [hk, hk2]

/-- Claim C8 witness: a rejected PUT of the `language` setting leaves the
stored value in place. -/
theorem setSetting_rejected_preserves_witness :
    setSetting ⟨false, fun _ => Option.none⟩ "language"
      (fun _ => Option.some "fr") "language" =
      (fun _ => Option.some "fr" : SettingsMap) "language" :=
  (setSetting_rejected_preserves ⟨false, fun _ => Option.none⟩ "language"
    (fun _ => Option.some "fr")).1 rfl "language"

/-- Claim C9: the console log buffer is bounded by `maxLogs` (100) after
every `addLog`, the oldest entry is evicted first when the bound is
reached (insertion order otherwise retained), and `clear` resets the
buffer and the error count. -/
theorem addLog_bounded (st : LoggerState) (e : LogEntry)
    (hlen : st.logs.length ≤ maxLogs) :
    (addLog st e).logs.length ≤ maxLogs ∧
    (addLog st e).logs =
      (if st.logs.length < maxLogs then st.logs else st.logs.tail) ++ [e] ∧
    (clear st).logs = [] ∧ (clear st).errorCount = 0 := by
  refine ⟨?_, ?_, rfl, rfl⟩
  · simp only [addLog, maxLogs] at *
    split_ifs with h
    · simp only [List.length_tail, List.length_append, List.length_singleton] at h ⊢
      omega
    · simp only [List.length_append, List.length_singleton] at h ⊢
      omega
  · simp only [addLog, maxLogs] at *
    split_ifs with h h2
    · -- at capacity: the pushed list is shifted, dropping the oldest entry
      simp only [List.length_append, List.length_singleton] at h
      omega
    · have hne : st.logs ≠ [] := by
        intro hnil
        rw [hnil] at h
        simp at h
      exact List.tail_append_singleton_of_ne_nil hne
    · rfl
    · simp only [List.length_append, List.length_singleton] at h
      omega

/-- Claim C9 witness: adding to an empty buffer keeps it within bounds and
appends at the end; `clear` empties it. -/
theorem addLog_bounded_witness :
    (addLog ⟨[], 0⟩ ⟨"info", "hello"⟩).logs.length ≤ maxLogs ∧
    (addLog ⟨[], 0⟩ ⟨"info", "hello"⟩).logs =
      (if ([] : List LogEntry).length < maxLogs then ([] : List LogEntry)
        else ([] : List LogEntry).tail) ++ [⟨"info", "hello"⟩] ∧
    (clear ⟨[], 0⟩).logs = [] ∧ (clear ⟨[], 0⟩).errorCount = 0 :=
  addLog_bounded ⟨[], 0⟩ ⟨"info", "hello"⟩ (by decide)

/-- Claim C10: the quantizer clamps each input sample to `[-1, 1]`, scales
negative values by `0x8000` and non-negative ones by `0x7FFF`, so every
stored int16 lies in `[-32768, 32767]` with no two's-complement
wraparound, and `-1`, `0`, `1` map to `-32768`, `0`, `32767`. -/
theorem quantize_in_range (x : ℚ) (view : ByteView) (off : Nat) :
    -32768 ≤ quantize x ∧ quantize x ≤ 32767 ∧
      readI16 (setInt16 view off (scaleSample x)) off = quantize x ∧
      quantize (-1) = -32768 ∧ quantize 0 = 0 ∧ quantize 1 = 32767 := by
  obtain ⟨h1, h2⟩ := quantize_bounds x
  exact ⟨h1, h2, readI16_setInt16 view off (scaleSample x) h1 h2,
    quantize_neg_one, quantize_zero, quantize_one⟩

end LocalStt
